import Mathlib

/-!
Verification of the PII Detection & Redaction Engine of the
RLG Discovery App (source: `src/logic.py`, with a duplicated copy of the
redaction core in `src/v1_v4_one_stop_discovery_app.py`).

The Python code is shallowly embedded: page text and matched strings are
`List Char` (Python `str`), pattern identities are `String` (regex source
text; the regex engine itself is not embedded — matches enter the model as
data), byte blobs are `String` (opaque), rectangle coordinates are `ℚ`
(PyMuPDF floats; only exact additions/subtractions of the constant pad
occur in the modelled code), and OCR token boxes carry `Int` coordinates
(tesseract returns integers).  Character classes (`\d`, `\w`, `\s`,
`str.strip`, `str.isdigit`, case folding) are modelled at ASCII precision,
which covers every character class decision the embedded code paths make.
-/

/-- Python whitespace at ASCII precision: the characters stripped by
`str.strip()` and matched by `\s` (space, tab, LF, CR, VT, FF). -/
def isSpacePy (c : Char) : Bool :=
  c == ' ' || c == '\t' || c == '\n' || c == '\r' || c == '\x0b' || c == '\x0c'

/-- Python `str.strip()`: drop whitespace from both ends. -/
def pyStrip (l : List Char) : List Char :=
  ((l.dropWhile isSpacePy).reverse.dropWhile isSpacePy).reverse

/-- Predicate `\w` of Python `re` at ASCII precision: letters, digits, underscore. -/
def isWordChar (c : Char) : Bool :=
  c.isAlpha || c.isDigit || c == '_'

/-- Number of digit characters of a string (`sum(ch.isdigit() for ch in s)`). -/
def countDigits (s : List Char) : Nat :=
  (s.filter Char.isDigit).length

/-- Length after removing all whitespace: `len(re.sub(r"\s+", "", s))`. -/
def nonwsLen (s : List Char) : Nat :=
  (s.filter (fun c => !isSpacePy c)).length

/-- Count of letter/digit characters of a string (the spec's
"digit/letter count (ignoring whitespace)"). -/
def digitLetterCount (s : List Char) : Nat :=
  (s.filter (fun c => c.isAlpha || c.isDigit)).length

/-- The `src/logic.py` `Hit` dataclass: one audited match. -/
structure Hit where
  rel_path : String
  page_num : Nat
  pattern : String
  matched_text : String
deriving DecidableEq, Repr

/-- Helper for `prefix_excluding_last_n_digits`: walk the REVERSED string
(the Python loop `for i in range(len(s)-1, -1, -1)`), counting digit
characters; once the `n`-th digit is found return the remainder (which,
reversed back, is `s[:i]`).  `none` models falling off the loop
(`return ""`: fewer than `n` digits in the whole string). -/
def skipDigitsRev : List Char → Nat → Option (List Char)
  | [], _ => none
  | c :: rest, n =>
    if c.isDigit then
      if n = 1 then some rest else skipDigitsRev rest (n - 1)
    else skipDigitsRev rest n

/-- Embeds `src/logic.py` `prefix_excluding_last_n_digits(s, n)`:
`s` if `n <= 0`; otherwise `s[:i]` where `i` is the index of the `n`-th
digit counted from the right, and `""` when `s` holds fewer than `n`
digits. -/
def prefix_excluding_last_n_digits (s : List Char) (n : Nat) : List Char :=
  if n = 0 then s
  else
    match skipDigitsRev s.reverse n with
    | some r => r.reverse
    | none => []

theorem skipDigitsRev_none_iff (l : List Char) (n : Nat) (hn : 1 ≤ n) :
    skipDigitsRev l n = none ↔ countDigits l < n := by
  induction l generalizing n with
  | nil =>
    simp [skipDigitsRev, countDigits]
    omega
  | cons c rest ih =>
    by_cases hc : c.isDigit
    · rcases Nat.eq_or_lt_of_le hn with h1 | h1
      · simp [skipDigitsRev, hc, ← h1, countDigits]
      · have hn' : 1 ≤ n - 1 := by omega
        have : ¬ n = 1 := by omega
        simp only [skipDigitsRev, hc, if_pos rfl, if_neg this, ite_true]
        rw [ih (n - 1) hn']
        simp [countDigits, hc]
        omega
    · simp only [skipDigitsRev, hc, Bool.false_eq_true, ite_false]
      rw [ih n hn]
      simp [countDigits, hc]

theorem skipDigitsRev_some (l : List Char) (n : Nat) (r : List Char) (hn : 1 ≤ n)
    (h : skipDigitsRev l n = some r) :
    ∃ d, l = d ++ r ∧ countDigits d = n ∧
      ∃ dd c, d = dd ++ [c] ∧ c.isDigit = true := by
  induction l generalizing n r with
  | nil => simp [skipDigitsRev] at h
  | cons c rest ih =>
    by_cases hc : c.isDigit
    · by_cases h1 : n = 1
      · subst h1
        simp [skipDigitsRev, hc] at h
        refine ⟨[c], by simp [h], by simp [countDigits, hc], [], c, rfl, hc⟩
      · simp [skipDigitsRev, hc, h1] at h
        have hn' : 1 ≤ n - 1 := by omega
        obtain ⟨d, hd, hcount, dd, c', hdd, hdig⟩ := ih (n - 1) r hn' h
        refine ⟨c :: d, by simp [hd], ?_, c :: dd, c', by simp [hdd], hdig⟩
        simp [countDigits, hc] at hcount ⊢
        omega
    · simp [skipDigitsRev, hc] at h
      obtain ⟨d, hd, hcount, dd, c', hdd, hdig⟩ := ih n r hn h
      refine ⟨c :: d, by simp [hd], ?_, c :: dd, c', by simp [hdd], hdig⟩
      simp [countDigits, hc] at hcount ⊢
      exact hcount

theorem countDigits_reverse (l : List Char) :
    countDigits l.reverse = countDigits l := by
  simp [countDigits, List.filter_reverse]

/-- When the string holds fewer than `n ≥ 1` digits, the computed prefix is
empty. -/
theorem prefix_excluding_eq_nil_of_few_digits (s : List Char) (n : Nat)
    (hn : 1 ≤ n) (h : countDigits s < n) :
    prefix_excluding_last_n_digits s n = [] := by
  have hn0 : ¬ n = 0 := by omega
  have : skipDigitsRev s.reverse n = none := by
    rw [skipDigitsRev_none_iff s.reverse n hn, countDigits_reverse]
    exact h
  simp [prefix_excluding_last_n_digits, hn0, this]

/-- When the string holds at least `n ≥ 1` digits, the computed prefix `p`
satisfies the trim-from-the-right characterisation: `s = p ++ suf` where
the trimmed suffix `suf` holds exactly `n` digit characters and begins
with a digit (the `n`-th digit from the right). -/
theorem prefix_excluding_spec (s : List Char) (n : Nat)
    (hn : 1 ≤ n) (h : n ≤ countDigits s) :
    ∃ suf, s = prefix_excluding_last_n_digits s n ++ suf ∧
      countDigits suf = n ∧
      ∃ c, suf.head? = some c ∧ c.isDigit = true := by
  have hn0 : ¬ n = 0 := by omega
  cases hr : skipDigitsRev s.reverse n with
  | none =>
    rw [skipDigitsRev_none_iff s.reverse n hn, countDigits_reverse] at hr
    omega
  | some r =>
    obtain ⟨d, hd, hcount, dd, c, hdd, hdig⟩ := skipDigitsRev_some s.reverse n r hn hr
    refine ⟨d.reverse, ?_, ?_, c, ?_, hdig⟩
    · have : s.reverse.reverse = (d ++ r).reverse := by rw [hd]
      simpa [prefix_excluding_last_n_digits, hn0, hr] using this
    · rw [countDigits_reverse]; exact hcount
    · subst hdd; simp

/-- One case-insensitive literal of the SSN-context regex: consume the
(lowercase) literal from the front of the text, comparing after
`Char.toLower`, and return the remaining text. -/
def litMatch : List Char → List Char → Option (List Char)
  | [], rest => some rest
  | _ :: _, [] => none
  | k :: ks, c :: cs => if c.toLower == k then litMatch ks cs else none

/-- A two-word keyword of the SSN-context regex (`social\s*security`,
`soc\s*sec`, `taxpayer\s*id`): first word, then any run of whitespace
(`\s*`, possibly empty), then the second word.  Since neither word starts
with whitespace, consuming the whitespace run greedily is exhaustive. -/
def twoWordMatch (w1 w2 : List Char) (l : List Char) : Option (List Char) :=
  match litMatch w1 l with
  | some r => litMatch w2 (r.dropWhile isSpacePy)
  | none => none

/-- Closing `\b` after an alternative whose last character is a word
character: satisfied at end of text or before a non-word character. -/
def boundaryAfterWord : List Char → Bool
  | [] => true
  | c :: _ => !isWordChar c

/-- Closing `\b` after the alternative `ss#`, whose last character `#` is
NOT a word character: satisfied only when a word character follows. -/
def boundaryAfterNonWord : List Char → Bool
  | [] => false
  | c :: _ => isWordChar c

/-- Does one alternative of `SSN_CONTEXT_WORDS` match at the front of `l`,
with its closing `\b`?  (The opening `\b` is checked by the caller.) -/
def ssnAltsMatchHere (l : List Char) : Bool :=
  (match litMatch "ssn".toList l with
   | some r => boundaryAfterWord r | none => false) ||
  (match twoWordMatch "social".toList "security".toList l with
   | some r => boundaryAfterWord r | none => false) ||
  (match twoWordMatch "soc".toList "sec".toList l with
   | some r => boundaryAfterWord r | none => false) ||
  (match litMatch "ss#".toList l with
   | some r => boundaryAfterNonWord r | none => false) ||
  (match litMatch "tin".toList l with
   | some r => boundaryAfterWord r | none => false) ||
  (match twoWordMatch "taxpayer".toList "id".toList l with
   | some r => boundaryAfterWord r | none => false)

/-- Embeds `SSN_CONTEXT_WORDS.search(text)` of `src/logic.py`:
`re.compile(r"\b(ssn|social\s*security|soc\s*sec|ss#|tin|taxpayer\s*id)\b", re.I)`
searched over the whole text.  Every alternative starts with a word
character, so the opening `\b` holds exactly when the previous character
(if any) is not a word character; `prev` carries it. -/
def ssnContextSearchAux : Option Char → List Char → Bool
  | _, [] => false
  | prev, c :: rest =>
    ((match prev with | none => true | some pc => !isWordChar pc) &&
      ssnAltsMatchHere (c :: rest)) ||
    ssnContextSearchAux (some c) rest

/-- Truthiness of `SSN_CONTEXT_WORDS.search(l)`. -/
def ssnContextSearch (l : List Char) : Bool :=
  ssnContextSearchAux none l

/-- The three regex source strings of `PRESETS["SSN"]` in `src/logic.py`. -/
def ssnPresetPatterns : List String :=
  ["(?<!\\d)(?!000|666)\\d\x7b3\x7d[-\\s|](?!00)\\d\x7b2\x7d[-\\s|](?!0000)\\d\x7b4\x7d(?!\\d)",
   "(?<!\\d)(?!000|666)\\d\x7b3\x7d(?:(?:\\s*\\|\\s*)|(?:\\s+)|(?:-))(?!00)\\d\x7b2\x7d(?:(?:\\s*\\|\\s*)|(?:\\s+)|(?:-))(?!0000)\\d\x7b4\x7d(?!\\d)",
   "(?<!\\d)(?!000|666)\\d\x7b9\x7d(?!\\d)"]

/-- The `PRESETS` dictionary of `src/logic.py` (pattern source strings). -/
def PRESETS : List (String × List String) :=
  [("SSN", ssnPresetPatterns),
   ("Email", ["\\b[A-Za-z0-9._%+-]+@[A-Za-z0-9.-]+\\.[A-Za-z]\x7b2,\x7d\\b"]),
   ("Phone", ["\\(?\\d\x7b3\x7d\\)?[-.\\s]?\\d\x7b3\x7d[-.\\s]?\\d\x7b4\x7d",
              "\\+1[-.\\s]?\\(?\\d\x7b3\x7d\\)?[-.\\s]?\\d\x7b3\x7d[-.\\s]?\\d\x7b4\x7d",
              "1-\\d\x7b3\x7d-\\d\x7b3\x7d-\\d\x7b4\x7d"]),
   ("Date", ["\\b(?:\\d\x7b1,2\x7d[/-])\x7b2\x7d\\d\x7b2,4\x7d\\b",
             "\\b\\d\x7b4\x7d-\\d\x7b2\x7d-\\d\x7b2\x7d\\b"]),
   ("8-digit number", ["\\b\\d\x7b8\x7d\\b"])]

/-- Python `PRESETS.get(key, [])`. -/
def presetsGet (key : String) : List String :=
  (PRESETS.lookup key).getD []

/-- Test `_is_ssn_pat` of `redact_pdf_bytes`: membership of the pattern's source
text in `{p for p in PRESETS["SSN"]}`. -/
def is_ssn_pat (p : String) : Bool :=
  ssnPresetPatterns.contains p

/-- Guard `_passes_ssn_context_text(full_text, m)`: search the keyword regex over
`full_text[max(0, m.start()-60) : m.end()+60]` (`Nat` subtraction models
the `max(0, ·)` clamp). -/
def passes_ssn_context_text (full_text : List Char) (mstart mend : Nat) : Bool :=
  ssnContextSearch ((full_text.take (mend + 60)).drop (mstart - 60))

/-- One regex match delivered to the text-mode loop of `redact_pdf_bytes`:
the compiled pattern's source text, `m.group(0)`, `m.start()`, `m.end()`.
(The Python regex engine itself is not embedded; matches enter as data.) -/
structure TextMatch where
  pattern : String
  s : List Char
  mstart : Nat
  mend : Nat
deriving DecidableEq, Repr

/-- Result of the text-mode per-page loop: the appended `hits`, the
`full_targets` list and the keep-last-N prefix list, in loop order. -/
structure TextScan where
  hits : List Hit
  fulls : List (List Char)
  parts : List (List Char)
deriving DecidableEq, Repr

/-- The SSN context-guard test of the text-mode loop:
`not (require_ssn_context and _is_ssn_pat(pat) and not _passes_ssn_context_text(...))`. -/
def guardPasses (requireCtx : Bool) (pageText : List Char) (m : TextMatch) : Bool :=
  !(requireCtx && is_ssn_pat m.pattern &&
    !passes_ssn_context_text pageText m.mstart m.mend)

/-- The value `Hit("", page_index + 1, pat.pattern, s)` as created in the text-mode
loop (the page index is 0-based here, as in the Python loop). -/
def mkHit (pageIdx : Nat) (m : TextMatch) : Hit :=
  ⟨"", pageIdx + 1, m.pattern, String.mk m.s⟩

/-- The text-mode per-page loop of `redact_pdf_bytes` (identical in
`src/logic.py` and `src/v1_v4_one_stop_discovery_app.py`): per match,
skip whitespace-only matches, apply the SSN context guard, then either
record a keep-last-N prefix (when `keep_last_digits > 0` and the computed
prefix is nonempty) or a full-mask target, recording a `Hit` in both
cases. -/
def processTextMatches (requireCtx : Bool) (keep_last_digits : Nat)
    (pageIdx : Nat) (pageText : List Char) : List TextMatch → TextScan
  | [] => ⟨[], [], []⟩
  | m :: ms =>
    let rest := processTextMatches requireCtx keep_last_digits pageIdx pageText ms
    if (pyStrip m.s).isEmpty then rest
    else if !guardPasses requireCtx pageText m then rest
    else if 0 < keep_last_digits then
      let p := prefix_excluding_last_n_digits m.s keep_last_digits
      if !p.isEmpty then ⟨mkHit pageIdx m :: rest.hits, rest.fulls, p :: rest.parts⟩
      else ⟨mkHit pageIdx m :: rest.hits, m.s :: rest.fulls, rest.parts⟩
    else ⟨mkHit pageIdx m :: rest.hits, m.s :: rest.fulls, rest.parts⟩

/-- Geometry submission of `src/logic.py`: iterate over `set(targets)` and
skip any string whose whitespace-free length exceeds 60
(`if len(re.sub(r"\s+", "", s_lit)) > 60: continue`). -/
def geometryTargets60 (targets : List (List Char)) : List (List Char) :=
  targets.dedup.filter (fun s => !(60 < nonwsLen s))

/-- Geometry submission of `src/v1_v4_one_stop_discovery_app.py`: same
loop with ceiling 20 (`if len(re.sub(r"\s+", "", s_lit)) > 20: continue`). -/
def geometryTargets20 (targets : List (List Char)) : List (List Char) :=
  targets.dedup.filter (fun s => !(20 < nonwsLen s))

/-- Text-mode observable of the `src/logic.py` core: hits plus the
full-mask and left-mask strings actually submitted to geometry search. -/
def textModeOut_logic (requireCtx : Bool) (keep_last_digits : Nat)
    (pageIdx : Nat) (pageText : List Char) (ms : List TextMatch) : TextScan :=
  let r := processTextMatches requireCtx keep_last_digits pageIdx pageText ms
  ⟨r.hits, geometryTargets60 r.fulls, geometryTargets60 r.parts⟩

/-- Text-mode observable of the duplicated core in
`src/v1_v4_one_stop_discovery_app.py` (ceiling 20 instead of 60). -/
def textModeOut_v1v4 (requireCtx : Bool) (keep_last_digits : Nat)
    (pageIdx : Nat) (pageText : List Char) (ms : List TextMatch) : TextScan :=
  let r := processTextMatches requireCtx keep_last_digits pageIdx pageText ms
  ⟨r.hits, geometryTargets20 r.fulls, geometryTargets20 r.parts⟩

/-- A PyMuPDF rectangle `fitz.Rect(x0, y0, x1, y1)`, coordinates as `ℚ`. -/
structure Rect where
  x0 : ℚ
  y0 : ℚ
  x1 : ℚ
  y1 : ℚ
deriving DecidableEq, Repr

/-- Constant `PAD_VALUE = 3.0` of both source files. -/
def PAD_VALUE : ℚ := 3

/-- Embeds `add_black_redaction(page, rect, pad)`: the rectangle of the redaction
annotation actually drawn — the input grown by `pad` (default
`PAD_VALUE`) on all four sides. -/
def add_black_redaction_rect (r : Rect) (pad : Option ℚ) : Rect :=
  let p := pad.getD PAD_VALUE
  ⟨r.x0 - p, r.y0 - p, r.x1 + p, r.y1 + p⟩

/-- Embeds `add_black_redaction_leftmask(page, rect, pad)`: the rectangle drawn
for a keep-last-N mask — `x0 - p, y0 - p, x1, y1 + p`: grown on the left,
top and bottom, with `x1` (the edge against the retained characters) left
exactly where it was. -/
def add_black_redaction_leftmask_rect (r : Rect) (pad : Option ℚ) : Rect :=
  let p := pad.getD PAD_VALUE
  ⟨r.x0 - p, r.y0 - p, r.x1, r.y1 + p⟩

/-- One OCR token box from `pytesseract.image_to_data` (`left`, `top`,
`width`, `height` are integers). -/
structure OcrBox where
  left : Int
  top : Int
  width : Int
  height : Int
deriving DecidableEq, Repr

/-- The union bounding box of the five token boxes at indices
`i, i+1, i+2, i+3, i+4` (the `min`/`max` computation of the split-SSN
scan in `redact_pdf_bytes`, before padding is applied by
`add_black_redaction`). -/
def unionRect5 (boxes : List OcrBox) (i : Nat) : Rect :=
  let b0 := boxes.getD i ⟨0, 0, 0, 0⟩
  let b1 := boxes.getD (i + 1) ⟨0, 0, 0, 0⟩
  let b2 := boxes.getD (i + 2) ⟨0, 0, 0, 0⟩
  let b3 := boxes.getD (i + 3) ⟨0, 0, 0, 0⟩
  let b4 := boxes.getD (i + 4) ⟨0, 0, 0, 0⟩
  let x0 := min (min (min (min b0.left b1.left) b2.left) b3.left) b4.left
  let y0 := min (min (min (min b0.top b1.top) b2.top) b3.top) b4.top
  let x1 := max (max (max (max (b0.left + b0.width) (b1.left + b1.width))
    (b2.left + b2.width)) (b3.left + b3.width)) (b4.left + b4.width)
  let y1 := max (max (max (max (b0.top + b0.height) (b1.top + b1.height))
    (b2.top + b2.height)) (b3.top + b3.height)) (b4.top + b4.height)
  ⟨(x0 : ℚ), (y0 : ℚ), (x1 : ℚ), (y1 : ℚ)⟩

/-- The shape test of the split-SSN scan at window start `i`:
`w0 and w2 and w4` truthy, `re.fullmatch(r"\d{3}", w0)`,
`re.fullmatch(r"\D*", w1 or "")`, `re.fullmatch(r"\d{2}", w2)`,
`re.fullmatch(r"\D*", w3 or "")`, `re.fullmatch(r"\d{4}", w4)`. -/
def windowShapeOk (words : List (List Char)) (i : Nat) : Bool :=
  let w0 := words.getD i []
  let w1 := words.getD (i + 1) []
  let w2 := words.getD (i + 2) []
  let w3 := words.getD (i + 3) []
  let w4 := words.getD (i + 4) []
  !w0.isEmpty && !w2.isEmpty && !w4.isEmpty &&
  (w0.length == 3 && w0.all Char.isDigit) &&
  w1.all (fun c => !c.isDigit) &&
  (w2.length == 2 && w2.all Char.isDigit) &&
  w3.all (fun c => !c.isDigit) &&
  (w4.length == 4 && w4.all Char.isDigit)

/-- Python `" ".join(w for w in ws if w)`. -/
def joinNonEmptyWithSpace (ws : List (List Char)) : List Char :=
  List.intercalate [' '] (ws.filter (fun w => !w.isEmpty))

/-- Test `_nearby_has_ssn_keyword(center_i)` of the token-mode path: join the
nonempty tokens `words[max(0, c-6) : min(N, c+7)]` with spaces and search
the keyword regex over the result. -/
def nearbyHasSsnKeyword (words : List (List Char)) (c : Nat) : Bool :=
  let lo := c - 6
  let hi := min words.length (c + 7)
  ssnContextSearch (joinNonEmptyWithSpace ((words.take hi).drop lo))

/-- Does window `i` of the split-SSN scan produce a redaction: shape test,
then (when the context flag is on) the ±6-token keyword test around the
window centre `i+2`. -/
def windowPasses (requireCtx : Bool) (words : List (List Char)) (i : Nat) : Bool :=
  windowShapeOk words i && (!requireCtx || nearbyHasSsnKeyword words (i + 2))

/-- The value `Hit("", page_index + 1, "OCR_SSN_SPLIT", f"{w0}-{w2}-{w4}")`. -/
def splitHit (pageIdx : Nat) (words : List (List Char)) (i : Nat) : Hit :=
  ⟨"", pageIdx + 1, "OCR_SSN_SPLIT",
    String.mk (words.getD i [] ++ ['-'] ++ words.getD (i + 2) [] ++ ['-'] ++
      words.getD (i + 4) [])⟩

/-- The split-SSN token scan of `redact_pdf_bytes`
(`for i in range(0, max(0, N - 4)): ...`): for each passing window,
exactly one `Hit` is appended and one rectangle (the unpadded union box,
which then goes through `add_black_redaction`) is drawn. -/
def tokenSplitScan (requireCtx : Bool) (pageIdx : Nat)
    (words : List (List Char)) (boxes : List OcrBox) : List (Hit × Rect) :=
  (List.range (words.length - 4)).filterMap fun i =>
    if windowPasses requireCtx words i then
      some (splitHit pageIdx words i, unionRect5 boxes i)
    else none

/-- The two per-page extraction paths of `redact_pdf_bytes`. -/
inductive ExtractPath where
  | ocrTokens : ExtractPath
  | embeddedText : ExtractPath
deriving DecidableEq, Repr

/-- Python `page_had_text = bool(page_text.strip())`. -/
def page_had_text (pageText : List Char) : Bool :=
  !(pyStrip pageText).isEmpty

/-- The path selection `if not page_had_text and pytesseract is not None:`
— OCR tokens exactly when the embedded text strips to nothing AND OCR is
importable; the `else` branch (embedded text mode) runs in every other
case. -/
def choosePath (pageText : List Char) (ocrAvailable : Bool) : ExtractPath :=
  if !page_had_text pageText && ocrAvailable then .ocrTokens else .embeddedText

/-- Line-break characters of Python `str.splitlines` (ASCII/Latin range
plus the two Unicode separators). -/
def isLineBreak (c : Char) : Bool :=
  c == '\n' || c == '\r' || c == '\x0b' || c == '\x0c' || c == '\x1c' ||
  c == '\x1d' || c == '\x1e' || c == '\x85' || c == '\u2028' || c == '\u2029'

/-- Worker for `str.splitlines`: `acc` holds the current line reversed;
`\r\n` counts as a single break; no trailing empty line is produced. -/
def pySplitlinesAux (acc : List Char) : List Char → List (List Char)
  | [] => if acc.isEmpty then [] else [acc.reverse]
  | '\r' :: '\n' :: rest => acc.reverse :: pySplitlinesAux [] rest
  | c :: rest =>
    if isLineBreak c then acc.reverse :: pySplitlinesAux [] rest
    else pySplitlinesAux (c :: acc) rest
termination_by l => l.length

/-- Python `text_block.splitlines()`. -/
def pySplitlines (l : List Char) : List (List Char) :=
  pySplitlinesAux [] l

/-- Worker for `re.split(r"[\n,]", s)`: split at every newline or comma. -/
def reSplitNlCommaAux (acc : List Char) : List Char → List (List Char)
  | [] => [acc.reverse]
  | c :: rest =>
    if c == '\n' || c == ',' then acc.reverse :: reSplitNlCommaAux [] rest
    else reSplitNlCommaAux (c :: acc) rest

/-- Python `re.split(r"[\n,]", literals_block)`. -/
def splitNlComma (l : List Char) : List (List Char) :=
  reSplitNlCommaAux [] l

/-- The characters Python `re.escape` (3.7+) prefixes with a backslash. -/
def reSpecialChars : List Char :=
  ['(', ')', '[', ']', '\x7b', '\x7d', '?', '*', '+', '-', '|', '^', '$',
   '\\', '.', '&', '~', '#', ' ', '\t', '\n', '\r', '\x0b', '\x0c']

/-- Python `re.escape(s)`. -/
def re_escape (s : List Char) : List Char :=
  (s.map (fun c => if reSpecialChars.contains c then ['\\', c] else [c])).flatten

/-- The regex lines contributed by the free-text block in `load_patterns`:
split into lines, strip, drop empty lines and `#`-comments. -/
def textBlockLines (text_block : List Char) : List String :=
  if text_block.isEmpty then [] else
  ((pySplitlines text_block).map pyStrip).filterMap fun s =>
    if s.isEmpty || s.head? == some '#' then none else some (String.mk s)

/-- The escaped literal tokens contributed by the literals block in
`load_patterns`: split on newlines/commas, strip, drop empties, escape. -/
def literalsTokens (literals_block : List Char) : List String :=
  if literals_block.isEmpty then [] else
  ((splitNlComma literals_block).map pyStrip).filterMap fun s =>
    if s.isEmpty then none else some (String.mk (re_escape s))

/-- Embeds `load_patterns` of `src/logic.py` (named `load_patterns_from_ui` in
the duplicated copy, same body): collect preset patterns, regex lines and
escaped literals in that order; raise
`ValueError("Provide at least one pattern: ...")` exactly when the
collected list is empty.  Patterns are modelled by their source strings;
the `case_sensitive` flag only selects the `re.IGNORECASE` compile flag
and affects neither the count nor the identity of the patterns. -/
def load_patterns (preset_keys : List String)
    (text_block literals_block : List Char) (case_sensitive : Bool) :
    Except String (List String) :=
  let raw := (preset_keys.map presetsGet).flatten ++
    textBlockLines text_block ++ literalsTokens literals_block
  if raw.isEmpty then
    .error "Provide at least one pattern: select a preset, add regex, or include literal strings."
  else .ok raw

/-- Python `"_errors/{rel_path}.txt".replace('..', '.')`: Python `str.replace`,
left to right, non-overlapping. -/
def replaceDotDot : List Char → List Char
  | '.' :: '.' :: rest => '.' :: replaceDotDot rest
  | c :: rest => c :: replaceDotDot rest
  | [] => []
termination_by l => l.length

/-- The archive name of a failed document's error marker. -/
def errMarkerName (rel_path : String) : String :=
  String.mk (replaceDotDot ("_errors/" ++ rel_path ++ ".txt").toList)

/-- Python `str(Path(rel_path).with_suffix(".pdf"))`: replace the final
component's extension with `.pdf` (append when there is none; a name that
is only a leading dot has no extension). -/
def withSuffixPdf (rel_path : String) : String :=
  let cs := rel_path.toList
  let revName := cs.reverse.takeWhile (fun c => !(c == '/'))
  let revDir := cs.reverse.dropWhile (fun c => !(c == '/'))
  let stem :=
    match revName.dropWhile (fun c => !(c == '.')) with
    | [] => revName.reverse
    | _ :: restRev => if restRev.isEmpty then revName.reverse else restRev.reverse
  String.mk (revDir.reverse ++ stem ++ ".pdf".toList)

/-- Assignment `h.rel_path = rel_path` of `process_zip_bytes`, as a functional
update. -/
def setRelPath (rel_path : String) (h : Hit) : Hit :=
  { h with rel_path := rel_path }

/-- The per-entry loop of `process_zip_bytes` over the eligible archive
entries (`_iter_zip` already filtered directories, resource junk and
disallowed extensions).  `process` stands for the body of the `try:`
block — the pdf/image branch, `image_bytes_to_pdf` and
`redact_pdf_bytes` — returning the sanitized bytes and the document's
hits, or the exception message.  On success the hits get the entry's
`rel_path` and the output entry is the `.pdf`-renamed document; on
exception the output entry is the `_errors/...txt` marker holding
`f"Failed to process {rel_path}: {e}"`. -/
def process_zip_bytes_model
    (process : String → String → Except String (String × List Hit)) :
    List (String × String) → List (String × String) × List Hit
  | [] => ([], [])
  | (rel_path, data) :: rest =>
    let r := process_zip_bytes_model process rest
    match process rel_path data with
    | .ok (red_pdf, hs) =>
      ((withSuffixPdf rel_path, red_pdf) :: r.1,
        hs.map (setRelPath rel_path) ++ r.2)
    | .error e =>
      ((errMarkerName rel_path, "Failed to process " ++ rel_path ++ ": " ++ e) :: r.1,
        r.2)

theorem processTextMatches_single_hits (rc : Bool) (k idx : Nat)
    (pt : List Char) (m : TextMatch)
    (hstrip : (pyStrip m.s).isEmpty = false) (hg : guardPasses rc pt m = true) :
    (processTextMatches rc k idx pt [m]).hits = [mkHit idx m] := by
  simp only [processTextMatches, hstrip, hg, Bool.not_true, Bool.false_eq_true,
    if_false]
  split
  · split <;> rfl
  · rfl

theorem processTextMatches_single_discarded (rc : Bool) (k idx : Nat)
    (pt : List Char) (m : TextMatch) (hg : guardPasses rc pt m = false) :
    processTextMatches rc k idx pt [m] = ⟨[], [], []⟩ := by
  by_cases hs : (pyStrip m.s).isEmpty
  · simp [processTextMatches, hs]
  · simp [processTextMatches, hs, hg]

/-- C1 (amended): with `keep_last_digits = N > 0`, for a surviving match
`m` the computed value `prefix_excluding_last_n_digits(m.s, N)` is exactly
the prefix obtained by trimming `m.s` from the right until exactly `N`
digit characters have been skipped (the trimmed suffix holds exactly `N`
digits and starts with a digit), and it is empty when `m.s` holds fewer
than `N` digits.  When that prefix is nonempty it becomes the left-mask
target and the suffix stays visible; when it is empty — fewer than `N`
digits, or the `N`-th digit from the right is the first character — the
match falls through to the FULL-mask path (the entire string is masked),
not to a "nothing is masked" outcome; a `Hit` is recorded in both cases. -/
theorem claim_C1_keep_last_amended (requireCtx : Bool) (k pageIdx : Nat)
    (pageText : List Char) (m : TextMatch)
    (hk : 0 < k)
    (hstrip : (pyStrip m.s).isEmpty = false)
    (hguard : guardPasses requireCtx pageText m = true) :
    (k ≤ countDigits m.s →
      ∃ suf, m.s = prefix_excluding_last_n_digits m.s k ++ suf ∧
        countDigits suf = k ∧ ∃ c, suf.head? = some c ∧ c.isDigit = true) ∧
    (countDigits m.s < k → prefix_excluding_last_n_digits m.s k = []) ∧
    ((prefix_excluding_last_n_digits m.s k).isEmpty = false →
      processTextMatches requireCtx k pageIdx pageText [m] =
        ⟨[mkHit pageIdx m], [], [prefix_excluding_last_n_digits m.s k]⟩) ∧
    ((prefix_excluding_last_n_digits m.s k).isEmpty = true →
      processTextMatches requireCtx k pageIdx pageText [m] =
        ⟨[mkHit pageIdx m], [m.s], []⟩) := by
  have hn : 1 ≤ k := hk
  refine ⟨fun h => prefix_excluding_spec m.s k hn h,
    fun h => prefix_excluding_eq_nil_of_few_digits m.s k hn h, ?_, ?_⟩
  · intro hp
    simp [processTextMatches, hstrip, hguard, hk, hp]
  · intro hp
    simp [processTextMatches, hstrip, hguard, hk, hp]

/-- C1 witness: `"AB-12-3456"` with keep-last-4 — the loop records one
`Hit` and left-masks exactly the prefix `"AB-12-"`, leaving `"3456"`
visible. -/
theorem claim_C1_witness :
    (0 < 4 ∧ (pyStrip "AB-12-3456".toList).isEmpty = false ∧
      guardPasses false [] ⟨"p", "AB-12-3456".toList, 0, 10⟩ = true) ∧
    processTextMatches false 4 0 [] [⟨"p", "AB-12-3456".toList, 0, 10⟩] =
      ⟨[⟨"", 1, "p", "AB-12-3456"⟩], [], ["AB-12-".toList]⟩ := by
  refine ⟨⟨by decide, by decide, by decide⟩, ?_⟩
  have h := (claim_C1_keep_last_amended false 4 0 []
    ⟨"p", "AB-12-3456".toList, 0, 10⟩ (by decide) (by decide) (by decide)).2.2.1
    (by decide)
  exact h.trans (by decide)

/-- C1 counterexample: the matched string `"12"` holds fewer than 4
digits, yet with keep-last-4 the loop does NOT leave it unmasked — the
empty prefix falls through to the full-mask branch, so `"12"` is recorded
as a full-mask target and submitted to geometry search (the claim says
nothing is masked for such a hit). -/
theorem claim_C1_counterexample :
    countDigits "12".toList < 4 ∧
    textModeOut_logic false 4 0 "12".toList [⟨"p", "12".toList, 0, 2⟩] =
      ⟨[⟨"", 1, "p", "12"⟩], ["12".toList], []⟩ := ⟨by decide, by decide⟩

/-- Substring containment: does `pat` occur contiguously inside `l`? -/
def containsSub (pat : List Char) : List Char → Bool
  | [] => pat.isEmpty
  | c :: rest => pat.isPrefixOf (c :: rest) || containsSub pat rest

/-- The claim's literal reading of the context test, for comparison: the
window "contains one of the case-insensitive keywords" as plain substring
containment. -/
def specKeywordContains (l : List Char) : Bool :=
  let low := l.map Char.toLower
  ["ssn", "social security", "soc sec", "ss#", "tin", "taxpayer id"].any
    (fun kw => containsSub kw.toList low)

/-- C2 (amended): in text mode with the context guard enabled, a
non-whitespace match of an SSN-preset pattern produces a `Hit` (and a
mask target) if and only if the window
`page_text[max(0, start-60) : end+60]` MATCHES the compiled keyword regex
`\b(ssn|social\s*security|soc\s*sec|ss#|tin|taxpayer\s*id)\b`
case-insensitively (word boundaries at both ends — so e.g. `ss#` must be
followed directly by a word character — and `\s*` inside the two-word
keywords allows any amount of whitespace, including none); a failing
candidate is discarded entirely, and matches of non-SSN patterns are
never filtered by the guard. -/
theorem claim_C2_context_guard_amended (k pageIdx : Nat)
    (pageText : List Char) (m : TextMatch)
    (hstrip : (pyStrip m.s).isEmpty = false) :
    (is_ssn_pat m.pattern = true →
      (((processTextMatches true k pageIdx pageText [m]).hits ≠ []) ↔
        ssnContextSearch ((pageText.take (m.mend + 60)).drop (m.mstart - 60)) = true) ∧
      (passes_ssn_context_text pageText m.mstart m.mend = false →
        processTextMatches true k pageIdx pageText [m] = ⟨[], [], []⟩)) ∧
    (is_ssn_pat m.pattern = false →
      (processTextMatches true k pageIdx pageText [m]).hits = [mkHit pageIdx m]) := by
  constructor
  · intro hssn
    by_cases hp : passes_ssn_context_text pageText m.mstart m.mend = true
    · have hg : guardPasses true pageText m = true := by
        simp [guardPasses, hssn, hp]
      have hh := processTextMatches_single_hits true k pageIdx pageText m hstrip hg
      refine ⟨?_, ?_⟩
      · constructor
        · intro _
          simpa [passes_ssn_context_text] using hp
        · intro _
          simp [hh]
      · intro hp'
        rw [hp'] at hp
        cases hp
    · have hpf : passes_ssn_context_text pageText m.mstart m.mend = false := by
        simpa using hp
      have hg : guardPasses true pageText m = false := by
        simp [guardPasses, hssn, hpf]
      have hd := processTextMatches_single_discarded true k pageIdx pageText m hg
      refine ⟨?_, fun _ => hd⟩
      rw [hd]
      have hw : ssnContextSearch ((pageText.take (m.mend + 60)).drop (m.mstart - 60)) = false := by
        simpa [passes_ssn_context_text] using hpf
      simp [hw]
  · intro hssn
    have hg : guardPasses true pageText m = true := by
      simp [guardPasses, hssn]
    exact processTextMatches_single_hits true k pageIdx pageText m hstrip hg

/-- C2 witness: page text `"ssn: 123456789"`, an SSN-preset match of
`"123456789"` — the guard window matches the keyword regex and the match
yields a `Hit`. -/
theorem claim_C2_witness :
    (pyStrip "123456789".toList).isEmpty = false ∧
    (processTextMatches true 0 0 "ssn: 123456789".toList
      [⟨"(?<!\\d)(?!000|666)\\d\x7b9\x7d(?!\\d)", "123456789".toList, 5, 14⟩]).hits ≠ [] :=
  ⟨by decide,
    ((claim_C2_context_guard_amended 0 0 "ssn: 123456789".toList
      ⟨"(?<!\\d)(?!000|666)\\d\x7b9\x7d(?!\\d)", "123456789".toList, 5, 14⟩
      (by decide)).1 (by decide)).1.mpr (by decide)⟩

/-- C2 counterexample: page text `"ss# 123456789"` — the window CONTAINS
the keyword `"ss#"` as a case-insensitive substring, so the claim says
the SSN match of `"123456789"` produces a Hit; but the code's regex
requires a word boundary after `#` (a word character must follow), the
search fails, and the candidate is discarded entirely. -/
theorem claim_C2_counterexample :
    specKeywordContains (("ss# 123456789".toList.take (13 + 60)).drop (4 - 60)) = true ∧
    processTextMatches true 0 0 "ss# 123456789".toList
      [⟨"(?<!\\d)(?!000|666)\\d\x7b9\x7d(?!\\d)", "123456789".toList, 4, 13⟩] =
      ⟨[], [], []⟩ := ⟨by decide, by decide⟩

theorem load_patterns_eq (preset_keys : List String)
    (text_block literals_block : List Char) (case_sensitive : Bool) :
    load_patterns preset_keys text_block literals_block case_sensitive =
      if ((preset_keys.map presetsGet).flatten ++ textBlockLines text_block ++
          literalsTokens literals_block).isEmpty
      then .error "Provide at least one pattern: select a preset, add regex, or include literal strings."
      else .ok ((preset_keys.map presetsGet).flatten ++
        textBlockLines text_block ++ literalsTokens literals_block) := rfl

/-- C3: `load_patterns` raises its configuration `ValueError` if and only
if the combined input — patterns of the selected presets, stripped
non-empty non-`#` regex lines, and stripped non-empty comma/newline
separated literal tokens — is empty; whenever it returns, the returned
matcher list is nonempty, so the engine never runs with an empty pattern
set.  (`load_patterns` only builds the matcher list; it takes no document
input, so the failure happens before any document is touched.) -/
theorem claim_C3_load_patterns (preset_keys : List String)
    (text_block literals_block : List Char) (case_sensitive : Bool) :
    ((∃ e, load_patterns preset_keys text_block literals_block case_sensitive =
        .error e) ↔
      ((preset_keys.map presetsGet).flatten = [] ∧
        textBlockLines text_block = [] ∧ literalsTokens literals_block = [])) ∧
    (∀ l, load_patterns preset_keys text_block literals_block case_sensitive =
        .ok l → l ≠ []) := by
  by_cases hr : ((preset_keys.map presetsGet).flatten ++
      textBlockLines text_block ++ literalsTokens literals_block).isEmpty
  · have hnil : (preset_keys.map presetsGet).flatten ++
        textBlockLines text_block ++ literalsTokens literals_block = [] := by
      simpa using hr
    rw [List.append_eq_nil, List.append_eq_nil] at hnil
    constructor
    · constructor
      · intro _
        exact ⟨hnil.1.1, hnil.1.2, hnil.2⟩
      · intro _
        exact ⟨_, by rw [load_patterns_eq, if_pos hr]⟩
    · intro l hl
      rw [load_patterns_eq, if_pos hr] at hl
      cases hl
  · have hne : (preset_keys.map presetsGet).flatten ++
        textBlockLines text_block ++ literalsTokens literals_block ≠ [] := by
      intro h0
      exact hr (by simp [h0])
    constructor
    · constructor
      · rintro ⟨e, he⟩
        rw [load_patterns_eq, if_neg hr] at he
        cases he
      · rintro ⟨h1, h2, h3⟩
        exact absurd (by simp [h1, h2, h3]) hne
    · intro l hl
      rw [load_patterns_eq, if_neg hr] at hl
      cases hl
      exact hne

/-- C3 witness: selecting the SSN preset alone yields the three compiled
SSN matchers — a nonempty pattern list, no configuration error. -/
theorem claim_C3_witness :
    load_patterns ["SSN"] [] [] false = .ok ssnPresetPatterns ∧
    ssnPresetPatterns ≠ [] :=
  ⟨rfl, (claim_C3_load_patterns ["SSN"] [] [] false).2 ssnPresetPatterns rfl⟩

theorem geometryTargets_eq_of_no_gap (l : List (List Char))
    (h : ∀ s ∈ l, nonwsLen s ≤ 20 ∨ 60 < nonwsLen s) :
    geometryTargets60 l = geometryTargets20 l := by
  unfold geometryTargets60 geometryTargets20
  apply List.filter_congr
  intro s hs
  rcases h s (List.mem_dedup.mp hs) with h1 | h1
  · have e1 : ¬ 60 < nonwsLen s := by omega
    have e2 : ¬ 20 < nonwsLen s := by omega
    simp [e1, e2]
  · have e2 : 20 < nonwsLen s := by omega
    simp [h1, e2]

/-- C4 (amended): the two copies of the redaction core are identical
except for the geometry-search length ceiling — 60 in `src/logic.py`
("increased from 20 to 60 for emails") versus 20 in
`src/v1_v4_one_stop_discovery_app.py`.  They produce identical `Hit`
lists for every input, and identical geometry submissions (hence
identical masked output) exactly on inputs where no candidate string's
whitespace-free length falls in the gap `21..60`. -/
theorem claim_C4_duplicate_cores_amended (rc : Bool) (k idx : Nat)
    (pt : List Char) (ms : List TextMatch) :
    (textModeOut_logic rc k idx pt ms).hits = (textModeOut_v1v4 rc k idx pt ms).hits ∧
    ((∀ s ∈ (processTextMatches rc k idx pt ms).fulls ++
        (processTextMatches rc k idx pt ms).parts,
        nonwsLen s ≤ 20 ∨ 60 < nonwsLen s) →
      textModeOut_logic rc k idx pt ms = textModeOut_v1v4 rc k idx pt ms) := by
  constructor
  · rfl
  · intro h
    have hf := geometryTargets_eq_of_no_gap (processTextMatches rc k idx pt ms).fulls
      (fun s hs => h s (List.mem_append_left _ hs))
    have hp := geometryTargets_eq_of_no_gap (processTextMatches rc k idx pt ms).parts
      (fun s hs => h s (List.mem_append_right _ hs))
    simp [textModeOut_logic, textModeOut_v1v4, hf, hp]

/-- C4 witness: on a page whose only candidate is the 9-character string
`"123456789"` (below both ceilings) the two cores produce identical
output. -/
theorem claim_C4_witness :
    textModeOut_logic false 0 0 [] [⟨"p", "123456789".toList, 0, 9⟩] =
    textModeOut_v1v4 false 0 0 [] [⟨"p", "123456789".toList, 0, 9⟩] :=
  (claim_C4_duplicate_cores_amended false 0 0 []
    [⟨"p", "123456789".toList, 0, 9⟩]).2 (by decide)

/-- C4 counterexample: a 30-digit matched string (whitespace-free length
30) is submitted to geometry search — and masked — by the `src/logic.py`
core (ceiling 60) but skipped by the `src/v1_v4_one_stop_discovery_app.py`
core (ceiling 20), so the two cores do not return identical sanitized
documents for every input. -/
theorem claim_C4_counterexample :
    textModeOut_logic true 0 0 []
      [⟨"p", "123456789012345678901234567890".toList, 0, 30⟩] ≠
    textModeOut_v1v4 true 0 0 []
      [⟨"p", "123456789012345678901234567890".toList, 0, 30⟩] := by decide

/-- C5 (amended): a full-mask region is the resolved rectangle expanded
by exactly 3 units symmetrically on all four sides; a left-partial
(keep-last-N) region gets the 3-unit padding only on the LEFT, top and
bottom edges, while its RIGHT edge — the boundary between the redacted
prefix and the retained characters — is kept exactly, with no padding
bleeding into the retained portion.  (The claim put the padded edges at
top/bottom/right with the boundary on the left; in the code the retained
suffix sits to the right of the mask, `x1` is the un-padded boundary edge
and `x0` is padded.) -/
theorem claim_C5_padding_amended (r : Rect) :
    add_black_redaction_rect r none =
      ⟨r.x0 - 3, r.y0 - 3, r.x1 + 3, r.y1 + 3⟩ ∧
    add_black_redaction_leftmask_rect r none =
      ⟨r.x0 - 3, r.y0 - 3, r.x1, r.y1 + 3⟩ ∧
    (add_black_redaction_leftmask_rect r none).x1 = r.x1 :=
  ⟨rfl, rfl, rfl⟩

/-- C5 counterexample: for the rectangle `(10, 10, 20, 20)` the
left-partial mask drawn is `(7, 7, 20, 23)` — padded left/top/bottom,
right edge kept — not the claim's `(10, 7, 23, 23)` (padding on
top/bottom/right with the left edge kept). -/
theorem claim_C5_counterexample :
    add_black_redaction_leftmask_rect ⟨10, 10, 20, 20⟩ none = ⟨7, 7, 20, 23⟩ ∧
    add_black_redaction_leftmask_rect ⟨10, 10, 20, 20⟩ none ≠ ⟨10, 7, 23, 23⟩ := by
  constructor
  · show Rect.mk ((10 : ℚ) - 3) ((10 : ℚ) - 3) 20 ((20 : ℚ) + 3) = _
    norm_num
  · intro h
    have hx := congrArg Rect.x0 h
    norm_num [add_black_redaction_leftmask_rect, PAD_VALUE] at hx

theorem not_space_of_alnum (c : Char) (h : (c.isAlpha || c.isDigit) = true) :
    isSpacePy c = false := by
  cases hx : isSpacePy c
  · rfl
  · exfalso
    simp [isSpacePy] at hx
    rcases hx with ((((h1 | h1) | h1) | h1) | h1) | h1 <;> subst h1 <;>
      exact absurd h (by decide)

theorem digitLetterCount_le_nonwsLen (s : List Char) :
    digitLetterCount s ≤ nonwsLen s := by
  unfold digitLetterCount nonwsLen
  induction s with
  | nil => simp
  | cons c cs ih =>
    simp only [List.filter_cons]
    by_cases hc : (c.isAlpha || c.isDigit) = true
    · rw [if_pos hc, if_pos (by simp [not_space_of_alnum c hc])]
      simpa using ih
    · rw [if_neg (by simpa using hc)]
      cases hw : (!isSpacePy c)
      · rw [if_neg (by simp [hw])]
        exact ih
      · rw [if_pos (by simp [hw])]
        simp only [List.length_cons]
        omega

/-- C6: a string whose digit/letter count (ignoring whitespace) exceeds
60 is never submitted to geometry search — it passes neither the
full-mask nor the keep-last-N submission filter, in either copy of the
core (`src/logic.py` uses ceiling 60, the duplicate uses 20; digit/letter
characters are a subset of the non-whitespace characters the code
counts). -/
theorem claim_C6_length_ceiling (targets : List (List Char)) (s : List Char)
    (h : 60 < digitLetterCount s) :
    s ∉ geometryTargets60 targets ∧ s ∉ geometryTargets20 targets := by
  have hn : 60 < nonwsLen s := lt_of_lt_of_le h (digitLetterCount_le_nonwsLen s)
  refine ⟨fun hmem => ?_, fun hmem => ?_⟩
  · have hfilt := (List.mem_filter.mp hmem).2
    simp at hfilt
    omega
  · have hfilt := (List.mem_filter.mp hmem).2
    simp at hfilt
    omega

/-- C6 witness: a 61-letter string is excluded from both submission
filters even when it is a recorded target. -/
theorem claim_C6_witness :
    60 < digitLetterCount (List.replicate 61 'a') ∧
    List.replicate 61 'a' ∉ geometryTargets60 [List.replicate 61 'a'] ∧
    List.replicate 61 'a' ∉ geometryTargets20 [List.replicate 61 'a'] :=
  ⟨by decide,
    (claim_C6_length_ceiling [List.replicate 61 'a'] (List.replicate 61 'a')
      (by decide)).1,
    (claim_C6_length_ceiling [List.replicate 61 'a'] (List.replicate 61 'a')
      (by decide)).2⟩

theorem pyStrip_isEmpty_all_space (l : List Char)
    (h : (pyStrip l).isEmpty = true) : ∀ c ∈ l, isSpacePy c = true := by
  intro c hc
  unfold pyStrip at h
  rw [List.isEmpty_iff, List.reverse_eq_nil_iff] at h
  have h3 : ∀ x ∈ l.dropWhile isSpacePy, isSpacePy x = true := by
    intro x hx
    exact List.dropWhile_eq_nil_iff.mp h x (by simpa using hx)
  rw [← List.takeWhile_append_dropWhile (p := isSpacePy) (l := l)] at hc
  rcases List.mem_append.mp hc with h4 | h4
  · exact List.mem_takeWhile_imp h4
  · exact h3 c h4

theorem pyStrip_isEmpty_of_all_space (l : List Char)
    (h : ∀ c ∈ l, isSpacePy c = true) : (pyStrip l).isEmpty = true := by
  unfold pyStrip
  have h1 : l.dropWhile isSpacePy = [] := List.dropWhile_eq_nil_iff.mpr h
  simp [h1]

/-- C7: exactly one extraction path executes per page — the OCR token
path is chosen if and only if the embedded page text strips to whitespace
AND OCR is importable, the embedded-text path in every other case; and on
a whitespace-only page the text path yields zero hits and zero mask
targets (every regex match is a substring of the whitespace-only page
text, so the `if not s.strip(): continue` filter discards it), hence with
OCR unavailable such a page contributes nothing. -/
theorem claim_C7_extraction_path (pageText : List Char) (ocrAvailable : Bool) :
    (choosePath pageText ocrAvailable = .ocrTokens ↔
      ((pyStrip pageText).isEmpty = true ∧ ocrAvailable = true)) ∧
    (∀ (rc : Bool) (k idx : Nat) (ms : List TextMatch),
      (pyStrip pageText).isEmpty = true →
      (∀ m ∈ ms, m.s = (pageText.take m.mend).drop m.mstart) →
      processTextMatches rc k idx pageText ms = ⟨[], [], []⟩) := by
  constructor
  · unfold choosePath page_had_text
    cases he : (pyStrip pageText).isEmpty <;> cases ocrAvailable <;> simp
  · intro rc k idx ms hws hcons
    induction ms with
    | nil => rfl
    | cons m ms ih =>
      have hm : ∀ c ∈ m.s, isSpacePy c = true := by
        intro c hc
        rw [hcons m (List.mem_cons_self m ms)] at hc
        exact pyStrip_isEmpty_all_space pageText hws c
          (List.mem_of_mem_take (List.mem_of_mem_drop hc))
      have hempty := pyStrip_isEmpty_of_all_space m.s hm
      simp only [processTextMatches, hempty, if_pos rfl, ite_true]
      exact ih (fun m' hm' => hcons m' (List.mem_cons_of_mem m hm'))

/-- C7 witness: a page whose embedded text is a single space with OCR
unavailable takes the embedded-text path and yields zero hits and zero
mask targets. -/
theorem claim_C7_witness :
    choosePath [' '] false = ExtractPath.embeddedText ∧
    processTextMatches true 0 0 [' '] [⟨"p", [' '], 0, 1⟩] = ⟨[], [], []⟩ :=
  ⟨by decide,
    (claim_C7_extraction_path [' '] false).2 true 0 0 [⟨"p", [' '], 0, 1⟩]
      (by decide) (by decide)⟩

theorem filterMap_if_eq_filter_map {α β : Type} (p : α → Bool) (f : α → β)
    (l : List α) :
    (l.filterMap fun a => if p a then some (f a) else none) =
    (l.filter p).map f := by
  induction l with
  | nil => rfl
  | cons a l ih =>
    by_cases h : p a <;> simp [List.filterMap_cons, List.filter_cons, h, ih]

/-- C8: in token mode, for every window start `i` whose tokens have the
shape `\d{3} <non-digit noise> \d{2} <non-digit noise> \d{4}` (tokens
`i`, `i+2`, `i+4` nonempty — implied by their lengths — and, when the
context guard is on, an SSN keyword within ±6 tokens of the window
centre `i+2`), the split-SSN scan emits exactly one `Hit`
(`"OCR_SSN_SPLIT"`, text `w0-w2-w4`) per passing window — the scan is
the in-order image of the passing window indices — and the rectangle it
hands to `add_black_redaction` is the union bounding box of the five
tokens' rectangles. -/
theorem claim_C8_token_split (requireCtx : Bool) (pageIdx : Nat)
    (words : List (List Char)) (boxes : List OcrBox) (i : Nat)
    (hi : i + 4 < words.length)
    (h0 : (words.getD i []).length = 3 ∧ (words.getD i []).all Char.isDigit = true)
    (h1 : (words.getD (i+1) []).all (fun c => !c.isDigit) = true)
    (h2 : (words.getD (i+2) []).length = 2 ∧ (words.getD (i+2) []).all Char.isDigit = true)
    (h3 : (words.getD (i+3) []).all (fun c => !c.isDigit) = true)
    (h4 : (words.getD (i+4) []).length = 4 ∧ (words.getD (i+4) []).all Char.isDigit = true)
    (hctx : requireCtx = true → nearbyHasSsnKeyword words (i + 2) = true) :
    tokenSplitScan requireCtx pageIdx words boxes =
      ((List.range (words.length - 4)).filter (windowPasses requireCtx words)).map
        (fun j => (splitHit pageIdx words j, unionRect5 boxes j)) ∧
    windowPasses requireCtx words i = true ∧
    (splitHit pageIdx words i, unionRect5 boxes i) ∈
      tokenSplitScan requireCtx pageIdx words boxes := by
  obtain ⟨h0l, h0d⟩ := h0
  obtain ⟨h2l, h2d⟩ := h2
  obtain ⟨h4l, h4d⟩ := h4
  have e0 : (words.getD i []).isEmpty = false := by
    cases hx : words.getD i [] with
    | nil => rw [hx] at h0l; simp at h0l
    | cons a l => simp
  have e2 : (words.getD (i+2) []).isEmpty = false := by
    cases hx : words.getD (i+2) [] with
    | nil => rw [hx] at h2l; simp at h2l
    | cons a l => simp
  have e4 : (words.getD (i+4) []).isEmpty = false := by
    cases hx : words.getD (i+4) [] with
    | nil => rw [hx] at h4l; simp at h4l
    | cons a l => simp
  have hpass : windowPasses requireCtx words i = true := by
    simp only [List.getD_eq_getElem?_getD, List.all_eq_true,
      Bool.not_eq_true'] at h0l h0d h1 h2l h2d h3 h4l h4d e0 e2 e4
    cases requireCtx with
    | false =>
      simp [windowPasses, windowShapeOk, e0, e2, e4, h0l, h2l, h4l]
      exact ⟨⟨⟨⟨h0d, h1⟩, h2d⟩, h3⟩, h4d⟩
    | true =>
      simp [windowPasses, windowShapeOk, e0, e2, e4, h0l, h2l, h4l, hctx rfl]
      exact ⟨⟨⟨⟨h0d, h1⟩, h2d⟩, h3⟩, h4d⟩
  have hform : tokenSplitScan requireCtx pageIdx words boxes =
      ((List.range (words.length - 4)).filter (windowPasses requireCtx words)).map
        (fun j => (splitHit pageIdx words j, unionRect5 boxes j)) :=
    filterMap_if_eq_filter_map _ _ _
  refine ⟨hform, hpass, ?_⟩
  rw [hform]
  exact List.mem_map_of_mem _
    (List.mem_filter.mpr ⟨List.mem_range.mpr (by omega), hpass⟩)

/-- OCR token list for the C8 witness: `ssn 123 | 45 | 6789`. -/
def wsC8 : List (List Char) :=
  ["ssn".toList, "123".toList, "|".toList, "45".toList, "|".toList,
   "6789".toList]

/-- Token boxes for the C8 witness (parallel to `wsC8`). -/
def bxC8 : List OcrBox :=
  [⟨0, 0, 8, 10⟩, ⟨10, 0, 10, 10⟩, ⟨20, 0, 5, 10⟩, ⟨25, 0, 10, 10⟩,
   ⟨35, 0, 5, 10⟩, ⟨40, 0, 20, 10⟩]

/-- C8 witness: on the token stream `ssn 123 | 45 | 6789` with the guard
enabled, the window starting at token 1 passes and its `Hit` plus union
bounding box are emitted by the scan. -/
theorem claim_C8_witness :
    (splitHit 0 wsC8 1, unionRect5 bxC8 1) ∈ tokenSplitScan true 0 wsC8 bxC8 :=
  (claim_C8_token_split true 0 wsC8 bxC8 1 (by decide) ⟨by decide, by decide⟩
    (by decide) ⟨by decide, by decide⟩ (by decide) ⟨by decide, by decide⟩
    (fun _ => by decide)).2.2

/-- C9: the batch loop of `process_zip_bytes` maps every eligible entry
to exactly one output entry, pointwise: the sanitized `.pdf` on success,
the `_errors/...txt` marker holding the exception message on failure.
Because the output is a pointwise `map` of the entries, one document's
exception can neither remove another document's output nor abort the
batch, and no failing document is silently omitted. -/
theorem claim_C9_batch_isolation
    (process : String → String → Except String (String × List Hit))
    (entries : List (String × String)) :
    (process_zip_bytes_model process entries).1 =
      entries.map (fun pr =>
        match process pr.1 pr.2 with
        | .ok (red_pdf, _) => (withSuffixPdf pr.1, red_pdf)
        | .error e =>
          (errMarkerName pr.1, "Failed to process " ++ pr.1 ++ ": " ++ e)) ∧
    (process_zip_bytes_model process entries).1.length = entries.length := by
  have hmap : (process_zip_bytes_model process entries).1 =
      entries.map (fun pr =>
        match process pr.1 pr.2 with
        | .ok (red_pdf, _) => (withSuffixPdf pr.1, red_pdf)
        | .error e =>
          (errMarkerName pr.1, "Failed to process " ++ pr.1 ++ ": " ++ e)) := by
    induction entries with
    | nil => rfl
    | cons pr rest ih =>
      cases pr with
      | mk rel data =>
        simp only [process_zip_bytes_model]
        cases hp : process rel data with
        | ok v =>
          cases v with
          | mk b hs => simp [hp, ih]
        | error e => simp [hp, ih]
  exact ⟨hmap, by rw [hmap, List.length_map]⟩

/-- C10 (amended): the audit list returned by the batch loop is the
in-order concatenation of each successful document's hits, each hit
updated EXACTLY ONCE in its `rel_path` field (created as `""` inside
`redact_pdf_bytes`, overwritten with the document's archive path by
`process_zip_bytes` — the one mutation hits undergo); the page number,
pattern identifier and matched text are preserved verbatim, and the list
only grows by appending. -/
theorem claim_C10_audit_amended
    (process : String → String → Except String (String × List Hit))
    (entries : List (String × String)) :
    (process_zip_bytes_model process entries).2 =
      ((entries.map (fun pr =>
        match process pr.1 pr.2 with
        | .ok (_, hs) => hs.map (setRelPath pr.1)
        | .error _ => [])).flatten) ∧
    (∀ (rel : String) (h : Hit),
      (setRelPath rel h).rel_path = rel ∧
      (setRelPath rel h).page_num = h.page_num ∧
      (setRelPath rel h).pattern = h.pattern ∧
      (setRelPath rel h).matched_text = h.matched_text) := by
  constructor
  · induction entries with
    | nil => rfl
    | cons pr rest ih =>
      cases pr with
      | mk rel data =>
        simp only [process_zip_bytes_model]
        cases hp : process rel data with
        | ok v =>
          cases v with
          | mk b hs => simp [hp, ih]
        | error e => simp [hp, ih]
  · intro rel h
    exact ⟨rfl, rfl, rfl, rfl⟩

/-- Concrete per-document processing for the C10 counterexample: one page
yields one hit, created — as in `redact_pdf_bytes` — with `rel_path`
equal to the empty string. -/
def procC10 : String → String → Except String (String × List Hit) :=
  fun _ _ => .ok ("R", [⟨"", 1, "p1", "m1"⟩])

/-- C10 counterexample: the hit created during page processing has
`rel_path = ""`, but the same hit in the returned audit trail carries
`rel_path = "doc.pdf"` — `process_zip_bytes` mutates `h.rel_path` after
creation, so the audit entry is NOT field-for-field identical to the Hit
as created. -/
theorem claim_C10_counterexample :
    (process_zip_bytes_model procC10 [("doc.pdf", "D")]).2 =
      [⟨"doc.pdf", 1, "p1", "m1"⟩] ∧
    (⟨"doc.pdf", 1, "p1", "m1"⟩ : Hit) ≠ ⟨"", 1, "p1", "m1"⟩ :=
  ⟨by decide, by decide⟩
